import Mathlib

/-!
Verification development for the domainNameGuard monitor.

The definitions below are a shallow embedding of the Python sources:
`src/domain_checker.py` (probe executor, worker pool, status cache),
`src/error_tracker.py` (error-state tracker), `src/main.py` (notification
decision in `DomainMonitor.run_check`), `src/telegram_notifier.py` and
`src/telegram_bot.py` (message sending).

Modelling conventions:
* Python insertion-ordered `dict` is an association list `List (String × α)`;
  assigning to an existing key keeps its position, a fresh key is appended.
* Python `set` is a `List String` with membership-guarded insertion.
* `datetime` values are abstract `Nat` tick counts; the retention cutoff used
  by `cleanup_old_records` is passed in as a `cutoff` parameter.
* Network I/O is an oracle: each attempt of the probe executor consumes one
  `ProbeEvent` describing which `except` branch (or HTTP response) the
  attempt produced.
* Fallible Python code (a raised exception) is `Except String _`.
-/

/-- The `CheckStatus` enum of `domain_checker.py`. -/
inductive CheckStatus where
  | SUCCESS
  | DNS_ERROR
  | CONNECTION_ERROR
  | TIMEOUT
  | HTTP_ERROR
  | SSL_ERROR
  | WEBSOCKET_ERROR
  | PHISHING_WARNING
  | SECURITY_WARNING
  | UNKNOWN_ERROR
  deriving Repr, DecidableEq

/-- The `.value` string of each `CheckStatus` enum member. -/
def CheckStatus.value : CheckStatus → String
  | .SUCCESS => "success"
  | .DNS_ERROR => "dns_error"
  | .CONNECTION_ERROR => "connection_error"
  | .TIMEOUT => "timeout"
  | .HTTP_ERROR => "http_error"
  | .SSL_ERROR => "ssl_error"
  | .WEBSOCKET_ERROR => "websocket_error"
  | .PHISHING_WARNING => "phishing_warning"
  | .SECURITY_WARNING => "security_warning"
  | .UNKNOWN_ERROR => "unknown_error"

/-- The `CheckResult` dataclass of `domain_checker.py`. These are exactly the
fields accepted by the generated `__init__`; `is_success` is a read-only
property, not a field. -/
structure CheckResult where
  domain_name : String
  url : String
  status : CheckStatus
  status_code : Option Nat := none
  error_message : Option String := none
  response_time : Option Nat := none
  timestamp : Nat := 0
  deriving Repr, DecidableEq

/-- Property `CheckResult.is_success`. -/
def CheckResult.is_success (r : CheckResult) : Bool :=
  r.status == .SUCCESS

/-- The `DomainHistory` dataclass of `error_tracker.py`. -/
structure DomainHistory where
  domain_name : String
  status : String
  error_type : Option String
  timestamp : Nat
  acknowledged : Bool := false
  acknowledged_time : Option Nat := none
  notes : Option String := none
  deriving Repr, DecidableEq

/-- Python dict membership test `k in d`. -/
def dictHasKey (d : List (String × α)) (k : String) : Bool :=
  d.any (fun p => p.1 == k)

/-- Python dict read `d[k]` (as an option). -/
def dictGet? (d : List (String × α)) (k : String) : Option α :=
  (d.find? (fun p => p.1 == k)).map (fun p => p.2)

/-- Python dict assignment `d[k] = v`: an existing key keeps its position,
a fresh key is appended (insertion order). -/
def dictSet (d : List (String × α)) (k : String) (v : α) : List (String × α) :=
  if dictHasKey d k then d.map (fun p => if p.1 == k then (k, v) else p)
  else d ++ [(k, v)]

/-- Python set insertion `s.add(x)`. -/
def setAdd (s : List String) (x : String) : List String :=
  if s.contains x then s else s ++ [x]

/-- Python set removal `s.discard(x)`. -/
def setDiscard (s : List String) (x : String) : List String :=
  s.filter (fun y => y != x)

/-- In-memory state of `ErrorTracker`. -/
structure TrackerState where
  current_errors : List (String × CheckResult)
  previous_errors : List (String × CheckResult)
  acknowledged_errors : List String
  history : List DomainHistory
  deriving Repr, DecidableEq

/-- Field names accepted by the generated `CheckResult.__init__`. -/
def checkResultInitFields : List String :=
  ["domain_name", "url", "status", "status_code", "error_message",
   "response_time", "timestamp"]

/-- Keyword arguments used by the `CheckResult(...)` call in
`ErrorTracker.update_status` (error_tracker.py lines 167-174) when it builds
the synthetic recovery result. -/
def recoveredCallKwargs : List String :=
  ["domain_name", "url", "status", "is_success", "response_time", "checked_at"]

/-- The synthetic recovery `CheckResult(...)` construction of
`update_status`: Python rejects the call with a `TypeError` as soon as one
of the supplied keyword arguments is not an `__init__` field. -/
def mkRecoveredResult (domain url : String) (now : Nat) :
    Except String CheckResult :=
  match recoveredCallKwargs.find? (fun k => !(checkResultInitFields.contains k)) with
  | some k => .error ("TypeError: __init__ got an unexpected keyword argument " ++ k)
  | none =>
      .ok { domain_name := domain, url := url, status := .SUCCESS,
            response_time := some 0, timestamp := now }

/-- The `max_records` cap of `ErrorTracker.add_to_history`. -/
def historyCap : Nat := 10000

/-- Tail of `add_to_history`: append, then keep only `history[-10000:]`. -/
def historyAppend (history : List DomainHistory) (record : DomainHistory) :
    List DomainHistory :=
  let h := history ++ [record]
  if h.length > historyCap then h.drop (h.length - historyCap) else h

/-- The `DomainHistory` record built by `add_to_history`. -/
def mkHistoryRecord (result : CheckResult) (is_recovery : Bool) (now : Nat) :
    DomainHistory :=
  { domain_name := result.domain_name
    status := if is_recovery then "recovered" else result.status.value
    error_type := if is_recovery then none else some result.status.value
    timestamp := now
    acknowledged := false
    acknowledged_time := none
    notes := if is_recovery then some "域名已恢复正常" else result.error_message }

/-- Embedding of `ErrorTracker.add_to_history`. -/
def add_to_history (history : List DomainHistory) (result : CheckResult)
    (is_recovery : Bool) (now : Nat) : List DomainHistory :=
  historyAppend history (mkHistoryRecord result is_recovery now)

/-- Embedding of `ErrorTracker.cleanup_old_records`: keep records newer than the
retention cutoff. -/
def cleanup_old_records (cutoff : Nat) (history : List DomainHistory) :
    List DomainHistory :=
  history.filter (fun r => cutoff < r.timestamp)

/-- First loop of `update_status`, `current_errors` part: rebuild the map
from the non-success results. -/
def build_current_errors_go :
    List CheckResult → List (String × CheckResult) → List (String × CheckResult)
  | [], cur => cur
  | r :: rest, cur =>
      build_current_errors_go rest
        (if r.is_success then cur else dictSet cur r.domain_name r)

def buildCurrentErrors (results : List CheckResult) :
    List (String × CheckResult) :=
  build_current_errors_go results []

/-- First loop of `update_status`, `current_healthy` part. -/
def current_healthy_go : List CheckResult → List String → List String
  | [], hs => hs
  | r :: rest, hs =>
      current_healthy_go rest (if r.is_success then setAdd hs r.domain_name else hs)

def currentHealthy (results : List CheckResult) : List String :=
  current_healthy_go results []

/-- Second loop of `update_status`: walk `current_errors` and split into new
and persistent errors, appending history records for the new ones. The
accumulator is `(new_errors, persistent_errors, history)`. -/
def diff_errors_go (previous : List (String × CheckResult)) (now : Nat) :
    List (String × CheckResult) →
    List CheckResult × List CheckResult × List DomainHistory →
    List CheckResult × List CheckResult × List DomainHistory
  | [], acc => acc
  | p :: rest, (newE, persistent, hist) =>
      match dictGet? previous p.1 with
      | none =>
          diff_errors_go previous now rest
            (newE ++ [p.2], persistent, add_to_history hist p.2 false now)
      | some prev =>
          if prev.status ≠ p.2.status then
            diff_errors_go previous now rest
              (newE ++ [p.2], persistent, add_to_history hist p.2 false now)
          else diff_errors_go previous now rest (newE, persistent ++ [p.2], hist)

def diffErrors (previous cur : List (String × CheckResult)) (now : Nat)
    (history : List DomainHistory) :
    List CheckResult × List CheckResult × List DomainHistory :=
  diff_errors_go previous now cur ([], [], history)

/-- Third loop of `update_status`: walk `previous_errors` and, for every
endpoint now healthy, build the synthetic recovery result (which raises, see
`mkRecoveredResult`), record it, and drop the endpoint from the
acknowledged set. The accumulator is `(recovered, acknowledged, history)`. -/
def recovered_loop_go (healthy : List String) (now : Nat) :
    List (String × CheckResult) →
    List CheckResult × List String × List DomainHistory →
    Except String (List CheckResult × List String × List DomainHistory)
  | [], acc => .ok acc
  | p :: rest, (recov, ack, hist) =>
      if healthy.contains p.1 then
        match mkRecoveredResult p.1 p.2.url now with
        | .error e => .error e
        | .ok rr =>
            recovered_loop_go healthy now rest
              (recov ++ [rr], setDiscard ack p.1, add_to_history hist rr true now)
      else recovered_loop_go healthy now rest (recov, ack, hist)

def recoveredLoop (previous : List (String × CheckResult))
    (healthy : List String) (acknowledged : List String)
    (history : List DomainHistory) (now : Nat) :
    Except String (List CheckResult × List String × List DomainHistory) :=
  recovered_loop_go healthy now previous ([], acknowledged, history)

/-- Embedding of `ErrorTracker.update_status` (error_tracker.py lines 120-184). The final
`save_history` runs `cleanup_old_records`. Returns the new state together
with `(new_errors, recovered, persistent_errors)`, or the raised exception. -/
def update_status (st : TrackerState) (results : List CheckResult)
    (now cutoff : Nat) :
    Except String (TrackerState × List CheckResult × List CheckResult × List CheckResult) :=
  let previous := st.current_errors
  let cur := buildCurrentErrors results
  let healthy := currentHealthy results
  let dres := diffErrors previous cur now st.history
  match recoveredLoop previous healthy st.acknowledged_errors dres.2.2 now with
  | .error e => .error e
  | .ok rres =>
      .ok ({ current_errors := cur, previous_errors := previous,
             acknowledged_errors := rres.2.1,
             history := cleanup_old_records cutoff rres.2.2 },
           dres.1, rres.1, dres.2.1)

/-- Inner scan of `acknowledge_error`: mark the most recent unacknowledged
history record of `domain` (the Python loop walks `reversed(history)` and
stops at the first match). This helper walks the reversed list. -/
def ackMarkFirst (domain : String) (now : Nat) (notes : Option String) :
    List DomainHistory → List DomainHistory
  | [] => []
  | r :: rs =>
      if r.domain_name == domain && !r.acknowledged then
        { r with acknowledged := true, acknowledged_time := some now,
                 notes := match notes with | some n => some n | none => r.notes } :: rs
      else r :: ackMarkFirst domain now notes rs

/-- Embedding of `ErrorTracker.acknowledge_error` (error_tracker.py lines 203-223): the
domain is added to `acknowledged_errors` unconditionally, the latest
unacknowledged history record is stamped, `save_history` runs
`cleanup_old_records`. -/
def acknowledge_error (st : TrackerState) (domain : String)
    (notes : Option String) (now cutoff : Nat) : TrackerState :=
  { st with
    acknowledged_errors := setAdd st.acknowledged_errors domain
    history := cleanup_old_records cutoff
      ((ackMarkFirst domain now notes st.history.reverse).reverse) }

/-- Embedding of `ErrorTracker.get_unacknowledged_errors`. -/
def get_unacknowledged_errors (st : TrackerState) : List CheckResult :=
  (st.current_errors.filter
    (fun p => !(st.acknowledged_errors.contains p.1))).map (fun p => p.2)

/-- Embedding of `ErrorTracker.get_acknowledged_errors`. -/
def get_acknowledged_errors (st : TrackerState) : List CheckResult :=
  (st.current_errors.filter
    (fun p => st.acknowledged_errors.contains p.1)).map (fun p => p.2)

/-- The cap `DomainChecker.max_status_cache`. -/
def maxStatusCache : Nat := 1000

/-- Embedding of `DomainChecker._update_status_cache` (domain_checker.py lines
1250-1265): when the cache has reached 1000 entries, keep only
`items[len(items)//2:]` (the newest half, in insertion order) before the
assignment `last_status[url] = status`. -/
def update_status_cache (cache : List (String × Bool)) (url : String)
    (status : Bool) : List (String × Bool) :=
  let cache :=
    if cache.length ≥ maxStatusCache then cache.drop (cache.length / 2)
    else cache
  dictSet cache url status

/-- A tracker with no state, as built by `ErrorTracker.__init__` when no
history file exists. -/
def emptyTracker : TrackerState :=
  { current_errors := [], previous_errors := [], acknowledged_errors := [],
    history := [] }

/-- The two security classifications of `_check_for_security_issues`. -/
inductive SecurityKind where
  | phishing
  | security
  deriving Repr, DecidableEq

/-- One network attempt's outcome, as seen by the probe executor: which
`except` branch (or HTTP response) the attempt produced. The constructors
follow the handler structure of `check_single_domain` /
`_check_once` / `_check_websocket`. -/
inductive ProbeEvent where
  | response (code : Nat) (security : Option SecurityKind)
  | connectDns
  | connectSsl
  | connectRefused
  | connectUnreachable
  | connectReset
  | connectAborted
  | connectOther
  | timeoutEx
  | connectTimeoutEx
  | excSsl
  | excProxy
  | excProtocol
  | excCodec
  | excOther
  | wsOk
  | wsTimeout
  | wsInvalidUri
  | wsException
  | wsSslError
  | wsDnsError
  | wsOther
  deriving Repr, DecidableEq

/-- The `expected_codes` list of the probe executor. -/
def expected_codes : List Nat :=
  [200, 201, 202, 203, 204, 301, 302, 303, 304, 307, 308, 401, 403]

/-- Python `str.startswith(p)` via the character list (the library
`String.startsWith` does not reduce in the kernel). -/
def strStartsWith (s p : String) : Bool :=
  p.data.isPrefixOf s.data

/-- The host part after dropping an `n`-character scheme: characters up to
the next `/`. -/
def hostAfter (s : String) (n : Nat) : String :=
  ⟨(s.data.drop n).takeWhile (fun c => c ≠ '/')⟩

def isWsScheme (url : String) : Bool :=
  strStartsWith url "ws://" || strStartsWith url "wss://"

def isHttpScheme (url : String) : Bool :=
  strStartsWith url "http://" || strStartsWith url "https://"

/-- Scheme completion of a bare address: `http://` when this is a downgrade
attempt, `https://` otherwise (domain_checker.py lines 742-752). -/
def normalizeUrl (url : String) (try_http : Bool) : String :=
  if isHttpScheme url then url
  else if try_http then "http://" ++ url else "https://" ++ url

/-- Python `urlparse(url).netloc` for the scheme-prefixed URLs this checker
builds: the text between `://` and the next `/`. -/
def netloc (url : String) : String :=
  if strStartsWith url "https://" then hostAfter url 8
  else if strStartsWith url "http://" then hostAfter url 7
  else if strStartsWith url "wss://" then hostAfter url 6
  else if strStartsWith url "ws://" then hostAfter url 5
  else ""

/-- The fallback `name = parsed.netloc or original_url`. -/
def domainNameOf (normalized original : String) : String :=
  let n := netloc normalized
  if n == "" then original else n

def securityStatus : SecurityKind → CheckStatus
  | .phishing => .PHISHING_WARNING
  | .security => .SECURITY_WARNING

def mkResult (name url : String) (s : CheckStatus) (code : Option Nat := none) :
    CheckResult :=
  { domain_name := name, url := url, status := s, status_code := code }

/-- Embedding of `_check_websocket`: classify the single connection attempt. A ws probe
never retries and never downgrades. Non-websocket events cannot occur on a
websocket probe; they fall into the generic `WebSocketException` branch. -/
def wsClassify : ProbeEvent → CheckStatus
  | .wsOk => .SUCCESS
  | .wsTimeout => .TIMEOUT
  | .wsInvalidUri => .WEBSOCKET_ERROR
  | .wsException => .WEBSOCKET_ERROR
  | .wsSslError => .SSL_ERROR
  | .wsDnsError => .DNS_ERROR
  | .wsOther => .WEBSOCKET_ERROR
  | _ => .WEBSOCKET_ERROR

def check_websocket (url : String) (e : ProbeEvent) : CheckResult :=
  mkResult (domainNameOf url url) url (wsClassify e)

/-- Embedding of `DomainChecker._check_once` (domain_checker.py lines 467-713): a single
attempt, no retry and no downgrade. Its `ConnectError` handler has no
SSL branch, so an SSL-flavoured connect error lands in the final
`connection_error` arm. The worker pool always calls it with
`try_http=False`; `quick_mode` only shortens the timeout. Websocket events
on an HTTP probe cannot occur and map to the unknown-error arm. -/
def check_once (url : String) (e : ProbeEvent) : CheckResult :=
  if isWsScheme url then check_websocket url e
  else if !(isHttpScheme url) && strStartsWith url "ws." then
    check_websocket ("wss://" ++ url) e
  else
    let nurl := normalizeUrl url false
    let name := domainNameOf nurl url
    match e with
    | .response code sec =>
        match sec with
        | some k => mkResult name nurl (securityStatus k) (some code)
        | none =>
            if expected_codes.contains code then
              mkResult name nurl .SUCCESS (some code)
            else mkResult name nurl .HTTP_ERROR (some code)
    | .connectDns => mkResult name nurl .DNS_ERROR
    | .connectSsl => mkResult name nurl .CONNECTION_ERROR
    | .connectRefused => mkResult name nurl .CONNECTION_ERROR
    | .connectUnreachable => mkResult name nurl .CONNECTION_ERROR
    | .connectReset => mkResult name nurl .CONNECTION_ERROR
    | .connectAborted => mkResult name nurl .CONNECTION_ERROR
    | .connectOther => mkResult name nurl .CONNECTION_ERROR
    | .timeoutEx => mkResult name nurl .TIMEOUT
    | .connectTimeoutEx => mkResult name nurl .TIMEOUT
    | .excSsl => mkResult name nurl .SSL_ERROR
    | .excProxy => mkResult name nurl .CONNECTION_ERROR
    | .excProtocol => mkResult name nurl .CONNECTION_ERROR
    | .excCodec => mkResult name nurl .UNKNOWN_ERROR
    | .excOther => mkResult name nurl .UNKNOWN_ERROR
    | _ => mkResult name nurl .UNKNOWN_ERROR

/-- Checker parameters (constructor of `DomainChecker` plus the per-run
values read from configuration). -/
structure CheckerConfig where
  timeout : Nat := 10
  retry_count : Nat := 2
  retry_delay : Nat := 5
  max_concurrent : Nat := 10
  deriving Repr, DecidableEq

/-- The budget `max_retries = 1 if quick_mode else self.retry_count`. -/
def maxRetries (cfg : CheckerConfig) (quick : Bool) : Nat :=
  if quick then 1 else cfg.retry_count

/-- What `check_single_domain` did after classifying one attempt. -/
inductive StepKind where
  | ret
  | retryStep
  | downgradeStep
  deriving Repr, DecidableEq

/-- One attempt in a `check_single_domain` call chain: the URL actually
requested, the `retry_attempt` and `try_http` arguments of the invocation,
the classified status of this attempt, and what happened next. -/
structure AttemptRecord where
  url : String
  retry_attempt : Nat
  try_http : Bool
  status : CheckStatus
  step : StepKind
  deriving Repr, DecidableEq

/-- Grouping of `check_single_domain`'s exception handling (domain_checker.py
lines 783-1029) by what control flow follows:
* `retResult`: produce a `CheckResult` and return (HTTP response, security
  hit, DNS error, proxy / protocol / codec / unknown exceptions — none of
  these retry);
* `sslError`: SSL branch of the `ConnectError` handler, and the SSL branch
  of the generic handler (identical logic): downgrade if still on https;
* `connError`: the remaining `ConnectError` branches (refused, unreachable,
  reset, aborted, other): downgrade at attempt 0, else retry while budget
  remains;
* `timeoutErr`: `TimeoutException` / `ConnectTimeout` (the latter is a
  subclass, caught by the former first; both retry the same way). -/
inductive CsdBranch where
  | retResult (s : CheckStatus) (code : Option Nat)
  | sslError
  | connError
  | timeoutErr
  deriving Repr, DecidableEq

def csdClassify : ProbeEvent → CsdBranch
  | .response code sec =>
      match sec with
      | some k => .retResult (securityStatus k) (some code)
      | none =>
          if expected_codes.contains code then .retResult .SUCCESS (some code)
          else .retResult .HTTP_ERROR (some code)
  | .connectDns => .retResult .DNS_ERROR none
  | .connectSsl => .sslError
  | .connectRefused => .connError
  | .connectUnreachable => .connError
  | .connectReset => .connError
  | .connectAborted => .connError
  | .connectOther => .connError
  | .timeoutEx => .timeoutErr
  | .connectTimeoutEx => .timeoutErr
  | .excSsl => .sslError
  | .excProxy => .retResult .CONNECTION_ERROR none
  | .excProtocol => .retResult .CONNECTION_ERROR none
  | .excCodec => .retResult .UNKNOWN_ERROR none
  | .excOther => .retResult .UNKNOWN_ERROR none
  | .wsOk => .retResult .UNKNOWN_ERROR none
  | .wsTimeout => .retResult .UNKNOWN_ERROR none
  | .wsInvalidUri => .retResult .UNKNOWN_ERROR none
  | .wsException => .retResult .UNKNOWN_ERROR none
  | .wsSslError => .retResult .UNKNOWN_ERROR none
  | .wsDnsError => .retResult .UNKNOWN_ERROR none
  | .wsOther => .retResult .UNKNOWN_ERROR none

/-- Python `str.replace(pat, rep)` on character lists: left-to-right,
non-overlapping, replacing every occurrence. `skip` counts characters still
to copy over from the most recent match. -/
def replaceAllGo (pat rep : List Char) : Nat → List Char → List Char
  | _, [] => []
  | skip + 1, _ :: rest => replaceAllGo pat rep skip rest
  | 0, c :: rest =>
      if pat.isPrefixOf (c :: rest) then
        rep ++ replaceAllGo pat rep (pat.length - 1) rest
      else c :: replaceAllGo pat rep 0 rest

def strReplace (s pat rep : String) : String :=
  ⟨replaceAllGo pat.data rep.data 0 s.data⟩

/-- The downgrade target: `original_url.replace("https://", "http://") if
original_url.startswith("https://") else original_url`. -/
def downgradeUrl (url : String) : String :=
  if strStartsWith url "https://" then strReplace url "https://" "http://" else url

/-- The recursion of `check_single_domain` cannot run longer than one
retry ladder per scheme leg plus one downgrade, so this fuel is always
sufficient (`check_single_domain_go_isSome` below). -/
def csdFuel (cfg : CheckerConfig) (quick : Bool) : Nat :=
  2 * maxRetries cfg quick + 4

/-- Embedding of `DomainChecker.check_single_domain` (domain_checker.py lines 715-1029)
over the attempt oracle `ev`; `k` indexes the next attempt. Returns the
final `CheckResult` together with the log of attempts made. The source
recursion is not structural (a downgrade resets `retry_attempt` to 0), so
it is phrased over an explicit fuel that provably never runs out. -/
def check_single_domain_go (cfg : CheckerConfig) :
    Nat → String → Nat → Bool → Bool → (Nat → ProbeEvent) → Nat →
    Option (CheckResult × List AttemptRecord)
  | 0, _, _, _, _, _, _ => none
  | fuel + 1, url, retry_attempt, quick, try_http, ev, k =>
    if isWsScheme url then
      some (check_websocket url (ev k),
        [⟨url, retry_attempt, try_http, (check_websocket url (ev k)).status, .ret⟩])
    else if !(isHttpScheme url) && strStartsWith url "ws." then
      some (check_websocket ("wss://" ++ url) (ev k),
        [⟨"wss://" ++ url, retry_attempt, try_http,
          (check_websocket ("wss://" ++ url) (ev k)).status, .ret⟩])
    else
      match csdClassify (ev k) with
      | .retResult s code =>
          some (mkResult (domainNameOf (normalizeUrl url try_http) url)
              (normalizeUrl url try_http) s code,
            [⟨normalizeUrl url try_http, retry_attempt, try_http, s, .ret⟩])
      | .sslError =>
          if strStartsWith (normalizeUrl url try_http) "https://" && !try_http then
            (check_single_domain_go cfg fuel (downgradeUrl url) 0 quick true ev (k + 1)).map
              (fun rl => (rl.1, ⟨normalizeUrl url try_http, retry_attempt, try_http,
                .SSL_ERROR, .downgradeStep⟩ :: rl.2))
          else
            some (mkResult (domainNameOf (normalizeUrl url try_http) url)
                (normalizeUrl url try_http) .SSL_ERROR,
              [⟨normalizeUrl url try_http, retry_attempt, try_http, .SSL_ERROR, .ret⟩])
      | .connError =>
          if strStartsWith (normalizeUrl url try_http) "https://" && !try_http &&
              retry_attempt == 0 then
            (check_single_domain_go cfg fuel (downgradeUrl url) 0 quick true ev (k + 1)).map
              (fun rl => (rl.1, ⟨normalizeUrl url try_http, retry_attempt, try_http,
                .CONNECTION_ERROR, .downgradeStep⟩ :: rl.2))
          else if retry_attempt < maxRetries cfg quick then
            (check_single_domain_go cfg fuel url (retry_attempt + 1) quick try_http ev (k + 1)).map
              (fun rl => (rl.1, ⟨normalizeUrl url try_http, retry_attempt, try_http,
                .CONNECTION_ERROR, .retryStep⟩ :: rl.2))
          else
            some (mkResult (domainNameOf (normalizeUrl url try_http) url)
                (normalizeUrl url try_http) .CONNECTION_ERROR,
              [⟨normalizeUrl url try_http, retry_attempt, try_http, .CONNECTION_ERROR, .ret⟩])
      | .timeoutErr =>
          if retry_attempt < maxRetries cfg quick then
            (check_single_domain_go cfg fuel url (retry_attempt + 1) quick try_http ev (k + 1)).map
              (fun rl => (rl.1, ⟨normalizeUrl url try_http, retry_attempt, try_http,
                .TIMEOUT, .retryStep⟩ :: rl.2))
          else
            some (mkResult (domainNameOf (normalizeUrl url try_http) url)
                (normalizeUrl url try_http) .TIMEOUT,
              [⟨normalizeUrl url try_http, retry_attempt, try_http, .TIMEOUT, .ret⟩])

def check_single_domain (cfg : CheckerConfig) (url : String)
    (retry_attempt : Nat) (quick try_http : Bool)
    (ev : Nat → ProbeEvent) (k : Nat) :
    CheckResult × List AttemptRecord :=
  (check_single_domain_go cfg (csdFuel cfg quick) url retry_attempt quick
      try_http ev k).getD
    (mkResult url url .UNKNOWN_ERROR, [])

/-- Statuses the worker pool retries (domain_checker.py line 1128). -/
def retryableStatuses : List CheckStatus := [.TIMEOUT, .CONNECTION_ERROR]

/-- Per-endpoint flow of one batch of `check_domains_batch`: a first attempt
through `_check_once` (no internal retry, `try_http=False`), then — only
when that attempt classified as timeout or connection error and
`retry_count > 0` — one retry chain `check_single_domain(url,
retry_attempt=1, quick_mode, try_http=False)` whose outcome overwrites the
first at the same index. -/
def processEndpoint (cfg : CheckerConfig) (quick : Bool) (url : String)
    (ev : Nat → ProbeEvent) : CheckResult × List AttemptRecord :=
  if retryableStatuses.contains (check_once url (ev 0)).status &&
      cfg.retry_count > 0 then
    ((check_single_domain cfg url 1 quick false ev 1).1,
      ⟨normalizeUrl url false, 0, false, (check_once url (ev 0)).status, .retryStep⟩ ::
        (check_single_domain cfg url 1 quick false ev 1).2)
  else (check_once url (ev 0),
    [⟨normalizeUrl url false, 0, false, (check_once url (ev 0)).status, .ret⟩])

/-- The batch partition of the worker-pool while-loop: batch `i` takes
`sizes i` endpoints from the front of the remaining list (`sizes` models
`self.max_concurrent` across adaptive adjustments; the source clamps every
adjusted value into `[1, 200]`). Fuel is the remaining endpoint count, so
the recursion is structural; with `1 ≤ sizes i` the fuel never runs out. -/
def splitBatches : Nat → (Nat → Nat) → Nat → List String → List (List String)
  | 0, _, _, _ => []
  | _ + 1, _, _, [] => []
  | fuel + 1, sizes, i, urls =>
      urls.take (sizes i) :: splitBatches fuel sizes (i + 1) (urls.drop (sizes i))

/-- Embedding of `DomainChecker.check_domains_batch` (domain_checker.py lines 1031-1235):
quick mode iff more than 50 endpoints; per batch, first attempts then the
retry pass writing back at the original index; the concatenation of the
batch result lists. Callbacks, pauses and the status cache do not change
the returned list. -/
def check_domains_batch (cfg : CheckerConfig) (urls : List String)
    (sizes : Nat → Nat) (ev : String → Nat → ProbeEvent) : List CheckResult :=
  ((splitBatches urls.length sizes 0 urls).map
    (fun batch => batch.map
      (fun u => (processEndpoint cfg (decide (urls.length > 50)) u (ev u)).1))).flatten

/-- The `should_notify` flag of the `smart` branch of `DomainMonitor.run_check`
(main.py lines 455-457): only a non-empty diff sets it. -/
def smart_should_notify (new_errors recovered : List CheckResult) : Bool :=
  new_errors.length != 0 || recovered.length != 0

/-- The `results_to_notify` payload of the `smart` branch (main.py lines 458-466): with
unacknowledged current errors the payload is widened to all results — but
`should_notify` is left untouched. -/
def smart_results_to_notify (st : TrackerState)
    (new_errors recovered results : List CheckResult) : List CheckResult :=
  let toNotify := new_errors ++ recovered
  if (get_unacknowledged_errors st).length != 0 then results else toNotify

/-- Early return of `TelegramNotifier._send_smart_notification`
(telegram_notifier.py lines 497-500): without a new error or a recovery the
method sends nothing. -/
def send_smart_notification_sends (new_errors recovered : List CheckResult) : Bool :=
  !(new_errors.isEmpty && recovered.isEmpty)

/-- Whether a scheduled (`is_manual=False`) cycle under level `smart` in the
single-group path sends any chat message: the gate `if not batch_notify and
should_notify` (main.py line 530) composed with the notifier's own early
return. -/
def run_check_smart_message_sent (batch_notify : Bool) (st : TrackerState)
    (new_errors recovered results : List CheckResult) : Bool :=
  !batch_notify && smart_should_notify new_errors recovered &&
    send_smart_notification_sends new_errors recovered

/-- One `sendMessage` HTTP request. -/
structure SendRequest where
  text : String
  parse_mode : String
  deriving Repr, DecidableEq

/-- The messenger's reply: HTTP status code and the body's `ok` flag. -/
structure ApiResponse where
  status_code : Nat
  ok : Bool
  deriving Repr, DecidableEq

def MAX_MESSAGE_LENGTH : Nat := 4096

/-- Length truncation of `TelegramNotifier.send_message`
(`message[:truncate_at]` is taken on the character list so that it reduces
in the kernel; character counts agree with Python `len`). -/
def truncateMessage (message : String) : String :=
  if message.length > MAX_MESSAGE_LENGTH then
    (⟨message.data.take (MAX_MESSAGE_LENGTH - 100)⟩ : String) ++
      "\n\n... [消息已截断，请查看日志获取完整信息]"
  else message

/-- Embedding of `TelegramNotifier.send_message` (telegram_notifier.py lines 135-182)
against the messenger oracle `api`: truncate, issue one request, report
success iff HTTP 200 with body `ok`. Any non-200 reply — HTTP 400
included — yields `False` with no further request. Also returns the list
of requests issued. -/
def TelegramNotifier.send_message (message parse_mode : String)
    (api : SendRequest → ApiResponse) : Bool × List SendRequest :=
  let message := truncateMessage message
  let req : SendRequest := ⟨message, parse_mode⟩
  let resp := api req
  if resp.status_code == 200 then (resp.ok, [req]) else (false, [req])

/-- Embedding of `TelegramBot.send_message` (telegram_bot.py lines 120-157): on HTTP 400
with Markdown parse mode it re-sends once with the empty parse mode. The
recursive plain re-send is inlined here: with `parse_mode = ""` the callee
cannot take the 400 branch again, so its outcome is exactly
`status_code == 200`. -/
def TelegramBot.send_message (text parse_mode : String)
    (api : SendRequest → ApiResponse) : Bool × List SendRequest :=
  let req : SendRequest := ⟨text, parse_mode⟩
  let resp := api req
  if resp.status_code == 200 then (true, [req])
  else if resp.status_code == 400 && parse_mode == "Markdown" then
    let req2 : SendRequest := ⟨text, ""⟩
    let resp2 := api req2
    (resp2.status_code == 200, [req, req2])
  else (false, [req])

/-- Attempt-log predicate: a non-final attempt is either a same-URL retry
after a timeout / connection error, or the HTTP downgrade probe after an
SSL error (or after a connection error at `retry_attempt = 0`). -/
def chainStepOk (r : AttemptRecord) : Prop :=
  (r.step = .retryStep ∧ (r.status = .TIMEOUT ∨ r.status = .CONNECTION_ERROR)) ∨
  (r.step = .downgradeStep ∧ (r.status = .SSL_ERROR ∨
    (r.status = .CONNECTION_ERROR ∧ r.retry_attempt = 0)))

instance : DecidablePred chainStepOk := fun r => by
  unfold chainStepOk
  infer_instance

/-- Specification of one `check_single_domain` call chain with retry
budget `M`, entry attempt `a` and downgrade flag `th`: the attempt log is
non-empty and bounded, every non-final attempt is a sanctioned retry or
downgrade, downgrade attempts happen before the flag flips and only on the
sanctioned triggers, at most one downgrade occurs (none once `th` is set),
and the returned result carries the final attempt's status. -/
def CsdSpec (M a : Nat) (th : Bool) (r : CheckResult)
    (log : List AttemptRecord) : Prop :=
  log ≠ [] ∧
  log.length ≤ max (M + 1 - a) 1 + (if th then 0 else M + 1) ∧
  (∀ rec ∈ log.dropLast, chainStepOk rec) ∧
  (∀ rec ∈ log, rec.step = .downgradeStep →
    rec.try_http = false ∧ (rec.status = .SSL_ERROR ∨
      (rec.status = .CONNECTION_ERROR ∧ rec.retry_attempt = 0))) ∧
  ((log.filter (fun rec => rec.step == .downgradeStep)).length ≤
    if th then 0 else 1) ∧
  (∃ last, log.getLast? = some last ∧ last.step = .ret ∧ r.status = last.status)

/-- Fixture: a timeout failure for `a.test`. -/
def failA : CheckResult := mkResult "a.test" "https://a.test" .TIMEOUT

/-- Fixture: a connection failure for `b.test`. -/
def failB : CheckResult := mkResult "b.test" "https://b.test" .CONNECTION_ERROR

/-- Fixture: a success for `b.test`. -/
def okB : CheckResult := mkResult "b.test" "https://b.test" .SUCCESS (some 200)

/-- Fixture: a timeout failure for `c.test`. -/
def failC : CheckResult := mkResult "c.test" "https://c.test" .TIMEOUT

/-- Fixture: tracker whose previous cycle left `b.test` failing (and
acknowledged). -/
def c1State : TrackerState :=
  { current_errors := [("b.test", failB)], previous_errors := [],
    acknowledged_errors := ["b.test"], history := [] }

/-- Fixture: tracker with one persistent, unacknowledged current error. -/
def c2State : TrackerState :=
  { current_errors := [("c.test", failC)],
    previous_errors := [("c.test", failC)],
    acknowledged_errors := [], history := [] }

/-- Fixture: checker configured with `retry_count = 1`. -/
def c4cfg : CheckerConfig := { retry_count := 1 }

/-- Fixture oracle: first attempt times out, the batch retry hits an SSL
error, every later attempt times out. -/
def c4ev : Nat → ProbeEvent := fun k =>
  if k == 0 then .timeoutEx
  else if k == 1 then .connectSsl
  else .timeoutEx

/-- Fixture oracle: first attempt is refused, the second succeeds. -/
def c5ev : Nat → ProbeEvent := fun k =>
  if k == 0 then .connectRefused else .response 200 none

/-- Fixture: the same endpoint reported failing and succeeding in one
results list. -/
def c8DupResults : List CheckResult := [failB, okB]

/-- Two consecutive `update_status` calls with `c8DupResults`. -/
def c8SecondCall :
    Except String (TrackerState × List CheckResult × List CheckResult × List CheckResult) :=
  match update_status emptyTracker c8DupResults 1 0 with
  | .ok out => update_status out.1 c8DupResults 2 0
  | .error e => .error e

/-- Fixture: two distinct failing endpoints. -/
def results8 : List CheckResult := [failA, failB]

def urls6 : List String := ["a.test", "b.test", "c.test"]

def sizes6 : Nat → Nat := fun _ => 2

def ev6 : String → Nat → ProbeEvent := fun _ _ => .response 200 none

/-- Fixture: a messenger that rejects every request with HTTP 400. -/
def api400 : SendRequest → ApiResponse := fun _ => ⟨400, false⟩

/-- Fixture history record. -/
def histRec : DomainHistory := mkHistoryRecord failA false 1

/-- C1: the claim states that when the results passed to `update_status`
contain a success for an endpoint of `previous_errors`, the call completes
normally, reports it in `recovered`, appends a history record and removes
it from the acknowledged set. The code instead raises: the synthetic
recovery `CheckResult(...)` passes keyword arguments (`is_success`,
`checked_at`) that the dataclass `__init__` does not accept, so the call
dies with a `TypeError` on exactly this input. -/
theorem c1_recovery_construction_raises :
    dictHasKey c1State.current_errors "b.test" = true ∧
    okB.is_success = true ∧
    update_status c1State [okB] 1 0 =
      .error "TypeError: __init__ got an unexpected keyword argument is_success" := by
  refine ⟨by decide, by decide, rfl⟩

/-- C2: the claim states that under level `smart` with `is_manual = false`,
a cycle with no new errors, no recoveries and a positive unacknowledged
count sends a persistent-errors reminder. In the code `should_notify`
remains false in that situation (only `results_to_notify` is widened), and
`_send_smart_notification` returns without sending when the diff is empty,
so no message at all is sent: the modelled cycle with one unacknowledged
persistent error sends nothing. -/
theorem c2_no_persistent_reminder :
    (get_unacknowledged_errors c2State).length = 1 ∧
    smart_results_to_notify c2State [] [] [failC] = [failC] ∧
    run_check_smart_message_sent false c2State [] [] [failC] = false := by
  refine ⟨by decide, by decide, by decide⟩

/-- C3 counterexample: acknowledging a currently-healthy endpoint on a
fresh tracker adds it to the acknowledged set and changes the state, so
`acknowledged ⊆ keys(current_errors)` fails and the operation is not a
no-op — the claim is false as stated. -/
theorem c3_ack_healthy_changes_state :
    (acknowledge_error emptyTracker "a.test" none 1 0).acknowledged_errors
      = ["a.test"] ∧
    (acknowledge_error emptyTracker "a.test" none 1 0).current_errors = [] ∧
    acknowledge_error emptyTracker "a.test" none 1 0 ≠ emptyTracker := by
  refine ⟨by decide, by decide, by decide⟩

/-- C3 amended: `acknowledge_error` adds the endpoint to the acknowledged
set unconditionally — also when the endpoint is currently healthy — and
never touches `current_errors` or `previous_errors`; consequently the
acknowledged set need not be a subset of the current error keys. -/
theorem c3_ack_unconditional (st : TrackerState) (domain : String)
    (notes : Option String) (now cutoff : Nat) :
    (acknowledge_error st domain notes now cutoff).acknowledged_errors =
      setAdd st.acknowledged_errors domain ∧
    (acknowledge_error st domain notes now cutoff).current_errors =
      st.current_errors ∧
    (acknowledge_error st domain notes now cutoff).previous_errors =
      st.previous_errors :=
  ⟨rfl, rfl, rfl⟩

/-- C9 counterexample: on an HTTP 400 reply, `TelegramNotifier.send_message`
issues exactly one request (Markdown) and returns failure — it never
re-sends with no parse mode, contrary to the claim. -/
theorem c9_notifier_no_plain_resend :
    TelegramNotifier.send_message "hello" "Markdown" api400 =
      (false, [⟨"hello", "Markdown"⟩]) := by decide

/-- C9 amended: the notifier's `send_message` reports failure on HTTP 400
without any re-send; the Markdown-to-plain fallback lives in
`TelegramBot.send_message`, which re-sends the same text exactly once with
the empty parse mode and reports success iff that plain re-send returns
HTTP 200. -/
theorem c9_plain_fallback_is_in_bot (text : String)
    (api : SendRequest → ApiResponse)
    (hlen : text.length ≤ MAX_MESSAGE_LENGTH)
    (h400 : (api ⟨text, "Markdown"⟩).status_code = 400) :
    TelegramNotifier.send_message text "Markdown" api =
      (false, [⟨text, "Markdown"⟩]) ∧
    TelegramBot.send_message text "Markdown" api =
      ((api ⟨text, ""⟩).status_code == 200, [⟨text, "Markdown"⟩, ⟨text, ""⟩]) := by
  have htr : truncateMessage text = text := by
    unfold truncateMessage
    rw [if_neg]
    omega
  constructor
  · unfold TelegramNotifier.send_message
    rw [htr]
    simp [h400]
  · unfold TelegramBot.send_message
    simp [h400]

/-- C9 witness: the amended behaviour at a concrete always-400 messenger. -/
theorem c9_witness :
    ("x" : String).length ≤ MAX_MESSAGE_LENGTH ∧
    (api400 ⟨"x", "Markdown"⟩).status_code = 400 ∧
    (TelegramNotifier.send_message "x" "Markdown" api400 =
        (false, [⟨"x", "Markdown"⟩]) ∧
      TelegramBot.send_message "x" "Markdown" api400 =
        ((api400 ⟨"x", ""⟩).status_code == 200, [⟨"x", "Markdown"⟩, ⟨"x", ""⟩])) :=
  ⟨by decide, rfl, c9_plain_fallback_is_in_bot "x" api400 (by decide) rfl⟩

/-- C5 counterexample: for the bare endpoint `c5.test`, a first probe that
fails with a plain connection error (refused) — not a TLS error — already
triggers the `http://` downgrade probe on the verification-disabled
client; the claim that only a TLS/SSL failure triggers the downgrade is
false. -/
theorem c5_downgrade_on_connection_error :
    (check_single_domain {} "c5.test" 0 false false c5ev 0).2 =
      [⟨"https://c5.test", 0, false, .CONNECTION_ERROR, .downgradeStep⟩,
       ⟨"http://c5.test", 0, true, .SUCCESS, .ret⟩] := by decide

/-- C4 counterexample: with `retry_count = 1`, a batch endpoint can be
re-attempted three times beyond the first attempt (first attempt times
out, the batch retry hits an SSL error, the downgrade resets the retry
budget and the `http://` leg retries again), and one of those re-attempts
follows an `ssl_error` — not a timeout or connection error. -/
theorem c4_retry_budget_reset_by_downgrade :
    (processEndpoint c4cfg false "https://x.test" c4ev).2 =
      [⟨"https://x.test", 0, false, .TIMEOUT, .retryStep⟩,
       ⟨"https://x.test", 1, false, .SSL_ERROR, .downgradeStep⟩,
       ⟨"http://x.test", 0, true, .TIMEOUT, .retryStep⟩,
       ⟨"http://x.test", 1, true, .TIMEOUT, .ret⟩] ∧
    c4cfg.retry_count = 1 := by
  refine ⟨by decide, by decide⟩

/-- C8 counterexample: when one endpoint occurs both as a failure and as a
success in the same results list, the second of two identical
`update_status` calls does not return the claimed
`([], [], non-success results)` — it raises (the endpoint counts as both a
previous error and currently healthy, so the broken recovery constructor
runs). -/
theorem c8_second_call_raises :
    c8SecondCall =
      .error "TypeError: __init__ got an unexpected keyword argument is_success" := rfl

/-- Fixture: a timeout failure for `gone.test`. -/
def failGone : CheckResult := mkResult "gone.test" "https://gone.test" .TIMEOUT

/-- Fixture: tracker whose previous cycle left `gone.test` failing and
acknowledged, with a matching history record. -/
def c10State : TrackerState :=
  { current_errors := [("gone.test", failGone)], previous_errors := [],
    acknowledged_errors := ["gone.test"],
    history := [mkHistoryRecord failGone false 1] }

/-- A dict assignment grows the association list by at most one entry. -/
theorem dictSet_length_le {α : Type} (d : List (String × α)) (k : String)
    (v : α) : (dictSet d k v).length ≤ d.length + 1 := by
  unfold dictSet
  split
  · simp
  · simp

/-- C7: immediately after every insertion the last-status cache holds at
most 1000 entries and the history at most 10000 records, and a full cache
is first reduced to its newest half (`items[len(items)//2:]`, i.e. the
oldest half in insertion order is evicted) before the new entry is
written. -/
theorem c7_cache_and_history_caps (cache : List (String × Bool))
    (url : String) (b : Bool) (history : List DomainHistory)
    (record : DomainHistory) (hc : cache.length ≤ 1000) :
    (update_status_cache cache url b).length ≤ 1000 ∧
    (cache.length ≥ 1000 →
      update_status_cache cache url b =
        dictSet (cache.drop (cache.length / 2)) url b) ∧
    (historyAppend history record).length ≤ 10000 := by
  refine ⟨?_, ?_, ?_⟩
  · have hzeta : update_status_cache cache url b =
        dictSet
          (if cache.length ≥ maxStatusCache then cache.drop (cache.length / 2)
           else cache) url b := rfl
    rw [hzeta]
    unfold maxStatusCache
    split
    · next h =>
        have h1 := dictSet_length_le (cache.drop (cache.length / 2)) url b
        have h2 : (cache.drop (cache.length / 2)).length =
            cache.length - cache.length / 2 := List.length_drop _ _
        omega
    · next h =>
        have h1 := dictSet_length_le cache url b
        omega
  · intro hge
    have hzeta : update_status_cache cache url b =
        dictSet
          (if cache.length ≥ maxStatusCache then cache.drop (cache.length / 2)
           else cache) url b := rfl
    rw [hzeta, if_pos]
    exact hge
  · have hzeta : historyAppend history record =
        if (history ++ [record]).length > historyCap then
          (history ++ [record]).drop ((history ++ [record]).length - historyCap)
        else history ++ [record] := rfl
    rw [hzeta]
    unfold historyCap
    split
    · next h =>
        have h2 : ((history ++ [record]).drop
            ((history ++ [record]).length - 10000)).length =
            (history ++ [record]).length -
              ((history ++ [record]).length - 10000) := List.length_drop _ _
        omega
    · next h => omega

/-- C7 witness: the caps at a concrete one-entry cache and empty history. -/
theorem c7_witness :
    (([("u.test", true)] : List (String × Bool)).length ≤ 1000) ∧
    ((update_status_cache [("u.test", true)] "v.test" false).length ≤ 1000 ∧
      (([("u.test", true)] : List (String × Bool)).length ≥ 1000 →
        update_status_cache [("u.test", true)] "v.test" false =
          dictSet ((([("u.test", true)] : List (String × Bool))).drop
            (([("u.test", true)] : List (String × Bool)).length / 2))
            "v.test" false) ∧
      (historyAppend [] histRec).length ≤ 10000) :=
  ⟨by decide, c7_cache_and_history_caps _ _ _ _ _ (by decide)⟩

/-- The broken recovery constructor always raises: `is_success` is not an
`__init__` field. -/
theorem mkRecoveredResult_error (domain url : String) (now : Nat) :
    mkRecoveredResult domain url now =
      .error "TypeError: __init__ got an unexpected keyword argument is_success" :=
  rfl

theorem dictHasKey_iff {α : Type} (d : List (String × α)) (k : String) :
    dictHasKey d k = true ↔ ∃ p ∈ d, p.1 = k := by
  simp [dictHasKey, List.any_eq_true, beq_iff_eq]

theorem mem_dictSet {α : Type} {d : List (String × α)} {k : String} {v : α}
    {q : String × α} (h : q ∈ dictSet d k v) : q ∈ d ∨ q = (k, v) := by
  unfold dictSet at h
  split at h
  · rw [List.mem_map] at h
    obtain ⟨p, hp, hfp⟩ := h
    by_cases hk : p.1 == k
    · rw [if_pos hk] at hfp
      exact Or.inr hfp.symm
    · rw [if_neg hk] at hfp
      exact Or.inl (hfp ▸ hp)
  · rw [List.mem_append, List.mem_singleton] at h
    exact h

theorem dictSet_of_not_hasKey {α : Type} {d : List (String × α)} {k : String}
    (v : α) (h : dictHasKey d k = false) : dictSet d k v = d ++ [(k, v)] := by
  unfold dictSet
  rw [if_neg]
  simp [h]

/-- Every entry produced by the `current_errors` rebuild is one of the
non-success results, keyed by its own domain name. -/
theorem mem_build_go {results : List CheckResult}
    {acc : List (String × CheckResult)} {p : String × CheckResult}
    (h : p ∈ build_current_errors_go results acc) :
    p ∈ acc ∨ (p.2 ∈ results ∧ p.1 = p.2.domain_name ∧ p.2.is_success = false) := by
  induction results generalizing acc with
  | nil => exact Or.inl h
  | cons r rest ih =>
      rw [build_current_errors_go] at h
      rcases ih h with hacc | ⟨hmem, hkey, hfail⟩
      · by_cases hrs : r.is_success
        · rw [if_pos hrs] at hacc
          exact Or.inl hacc
        · rw [if_neg hrs] at hacc
          rcases mem_dictSet hacc with hin | rfl
          · exact Or.inl hin
          · exact Or.inr ⟨List.mem_cons_self _ _, rfl, by simpa using hrs⟩
      · exact Or.inr ⟨List.mem_cons_of_mem _ hmem, hkey, hfail⟩

theorem mem_buildCurrentErrors {results : List CheckResult}
    {p : String × CheckResult} (h : p ∈ buildCurrentErrors results) :
    p.2 ∈ results ∧ p.1 = p.2.domain_name ∧ p.2.is_success = false := by
  rcases mem_build_go h with hacc | hres
  · cases hacc
  · exact hres

theorem mem_add_to_history {history : List DomainHistory} {r : CheckResult}
    {b : Bool} {now : Nat} {rec : DomainHistory}
    (h : rec ∈ add_to_history history r b now) :
    rec ∈ history ∨ rec = mkHistoryRecord r b now := by
  have hzeta : add_to_history history r b now =
      if (history ++ [mkHistoryRecord r b now]).length > historyCap then
        (history ++ [mkHistoryRecord r b now]).drop
          ((history ++ [mkHistoryRecord r b now]).length - historyCap)
      else history ++ [mkHistoryRecord r b now] := rfl
  rw [hzeta] at h
  split at h
  · have := List.mem_of_mem_drop h
    rw [List.mem_append, List.mem_singleton] at this
    exact this
  · rw [List.mem_append, List.mem_singleton] at h
    exact h

/-- Any history record present after the new/persistent split was already
present before, or is the record of a new error at one of the walked
entries. -/
theorem mem_diff_go_hist {previous : List (String × CheckResult)} {now : Nat}
    {cur : List (String × CheckResult)}
    {acc : List CheckResult × List CheckResult × List DomainHistory}
    {rec : DomainHistory} (h : rec ∈ (diff_errors_go previous now cur acc).2.2) :
    rec ∈ acc.2.2 ∨ ∃ p ∈ cur, rec = mkHistoryRecord p.2 false now := by
  induction cur generalizing acc with
  | nil => exact Or.inl h
  | cons p rest ih =>
      obtain ⟨newE, persistent, hist⟩ := acc
      rw [diff_errors_go] at h
      split at h
      · rcases ih h with hh | ⟨p', hp', rfl⟩
        · rcases mem_add_to_history hh with hh2 | rfl
          · exact Or.inl hh2
          · exact Or.inr ⟨p, List.mem_cons_self _ _, rfl⟩
        · exact Or.inr ⟨p', List.mem_cons_of_mem _ hp', rfl⟩
      · split at h
        · rcases ih h with hh | ⟨p', hp', rfl⟩
          · rcases mem_add_to_history hh with hh2 | rfl
            · exact Or.inl hh2
            · exact Or.inr ⟨p, List.mem_cons_self _ _, rfl⟩
          · exact Or.inr ⟨p', List.mem_cons_of_mem _ hp', rfl⟩
        · rcases ih h with hh | ⟨p', hp', rfl⟩
          · exact Or.inl hh
          · exact Or.inr ⟨p', List.mem_cons_of_mem _ hp', rfl⟩

/-- The recovery loop only returns normally when no walked endpoint is in
the healthy set, and then it returns its accumulator unchanged (the
constructor inside the recovery branch always raises). -/
theorem recovered_go_ok {healthy : List String} {now : Nat}
    {prev : List (String × CheckResult)}
    {acc out : List CheckResult × List String × List DomainHistory}
    (h : recovered_loop_go healthy now prev acc = .ok out) :
    out = acc ∧ ∀ p ∈ prev, healthy.contains p.1 = false := by
  induction prev generalizing acc with
  | nil =>
      obtain ⟨a, b, c⟩ := acc
      rw [recovered_loop_go] at h
      exact ⟨(Except.ok.inj h).symm, by simp⟩
  | cons p rest ih =>
      obtain ⟨a, b, c⟩ := acc
      rw [recovered_loop_go] at h
      by_cases hc : healthy.contains p.1
      · rw [if_pos hc, mkRecoveredResult_error] at h
        cases h
      · rw [if_neg hc] at h
        obtain ⟨hout, hall⟩ := ih h
        refine ⟨hout, ?_⟩
        intro q hq
        rcases List.mem_cons.mp hq with rfl | hq2
        · simpa using hc
        · exact hall q hq2

/-- Conversely, with no overlap the recovery loop is the identity. -/
theorem recovered_go_disjoint {healthy : List String} {now : Nat}
    {prev : List (String × CheckResult)}
    (acc : List CheckResult × List String × List DomainHistory)
    (h : ∀ p ∈ prev, healthy.contains p.1 = false) :
    recovered_loop_go healthy now prev acc = .ok acc := by
  induction prev generalizing acc with
  | nil =>
      obtain ⟨a, b, c⟩ := acc
      rw [recovered_loop_go]
  | cons p rest ih =>
      obtain ⟨a, b, c⟩ := acc
      rw [recovered_loop_go]
      rw [if_neg (by rw [h p (List.mem_cons_self _ _)]; simp)]
      exact ih _ (fun q hq => h q (List.mem_cons_of_mem _ hq))

/-- Shape of every normal return of `update_status`: the recovery loop
contributed nothing (it cannot construct its synthetic result), so
`recovered = []`, the acknowledged set is unchanged, and the other
components come from the rebuild and the diff. -/
theorem update_status_ok {st : TrackerState} {results : List CheckResult}
    {now cutoff : Nat}
    {out : TrackerState × List CheckResult × List CheckResult × List CheckResult}
    (hok : update_status st results now cutoff = .ok out) :
    out.1.current_errors = buildCurrentErrors results ∧
    out.1.previous_errors = st.current_errors ∧
    out.1.acknowledged_errors = st.acknowledged_errors ∧
    out.1.history = cleanup_old_records cutoff
      (diffErrors st.current_errors (buildCurrentErrors results) now st.history).2.2 ∧
    out.2.1 =
      (diffErrors st.current_errors (buildCurrentErrors results) now st.history).1 ∧
    out.2.2.1 = [] ∧
    out.2.2.2 =
      (diffErrors st.current_errors (buildCurrentErrors results) now st.history).2.1 ∧
    ∀ p ∈ st.current_errors, (currentHealthy results).contains p.1 = false := by
  simp only [update_status] at hok
  rcases hRL : recoveredLoop st.current_errors (currentHealthy results)
      st.acknowledged_errors
      (diffErrors st.current_errors (buildCurrentErrors results) now st.history).2.2
      now with e | rres
  · rw [hRL] at hok
    cases hok
  · rw [hRL] at hok
    obtain ⟨hacc, hdisj⟩ := recovered_go_ok hRL
    subst hacc
    cases hok
    exact ⟨rfl, rfl, rfl, rfl, rfl, rfl, rfl, hdisj⟩

/-- C10: an endpoint that was a key of the failure map being diffed against
but does not occur at all in the results passed to `update_status` is
silently dropped on any normal return: it is gone from `current_errors`,
it is not reported as recovered, no history record is written for it, and
it is not removed from the acknowledged set. -/
theorem c10_absent_endpoint_silently_dropped (st : TrackerState)
    (results : List CheckResult) (d : String) (now cutoff : Nat)
    (out : TrackerState × List CheckResult × List CheckResult × List CheckResult)
    (hprev : dictHasKey st.current_errors d = true)
    (habs : ∀ r ∈ results, r.domain_name ≠ d)
    (hok : update_status st results now cutoff = .ok out) :
    dictHasKey out.1.current_errors d = false ∧
    out.2.2.1 = [] ∧
    (∀ rec ∈ out.1.history, rec.domain_name = d → rec ∈ st.history) ∧
    out.1.acknowledged_errors = st.acknowledged_errors := by
  obtain ⟨hcur, hprev2, hack, hhist, hnew, hrec, hpers, hdisj⟩ := update_status_ok hok
  refine ⟨?_, hrec, ?_, hack⟩
  · rw [hcur]
    by_contra hkey
    rw [Bool.not_eq_false, dictHasKey_iff] at hkey
    obtain ⟨p, hp, hpk⟩ := hkey
    obtain ⟨hmem, hname, _⟩ := mem_buildCurrentErrors hp
    exact habs p.2 hmem (by rw [← hname, hpk])
  · intro rec hmem hname
    rw [hhist] at hmem
    have hmem2 := List.mem_filter.mp hmem
    rcases mem_diff_go_hist hmem2.1 with hin | ⟨p, hp, rfl⟩
    · exact hin
    · obtain ⟨hpm, hpk, _⟩ := mem_buildCurrentErrors hp
      exact absurd hname (by simpa [mkHistoryRecord] using habs p.2 hpm)

/-- C10 witness: `gone.test` (failing and acknowledged last cycle) is
missing from the new results; the call succeeds and drops it silently. -/
theorem c10_witness :
    dictHasKey c10State.current_errors "gone.test" = true ∧
    (∀ r ∈ [failA], r.domain_name ≠ "gone.test") ∧
    ∃ out, update_status c10State [failA] 5 0 = .ok out ∧
      (dictHasKey out.1.current_errors "gone.test" = false ∧
       out.2.2.1 = [] ∧
       (∀ rec ∈ out.1.history, rec.domain_name = "gone.test" →
          rec ∈ c10State.history) ∧
       out.1.acknowledged_errors = c10State.acknowledged_errors) :=
  ⟨by decide, by decide, _, rfl,
    c10_absent_endpoint_silently_dropped c10State [failA] "gone.test" 5 0 _
      (by decide) (by decide) rfl⟩

/-- In an association list with distinct keys, lookup of a member entry's
key returns that entry's value. -/
theorem dictGet?_self_of_nodup {α : Type} {d : List (String × α)}
    (hnd : (d.map Prod.fst).Nodup) :
    ∀ p ∈ d, dictGet? d p.1 = some p.2 := by
  induction d with
  | nil => intro p hp; cases hp
  | cons q rest ih =>
      intro p hp
      rw [List.map_cons, List.nodup_cons] at hnd
      rcases List.mem_cons.mp hp with rfl | hp2
      · simp [dictGet?, List.find?]
      · have hne : ¬(q.1 == p.1) := by
          have : p.1 ∈ rest.map Prod.fst := List.mem_map_of_mem _ hp2
          simp only [beq_iff_eq]
          intro hq
          exact hnd.1 (hq ▸ this)
        have := ih hnd.2 p hp2
        simp only [dictGet?, List.find?, hne] at *
        simpa [Bool.not_eq_true] using this

/-- With pairwise-distinct domain names, the rebuilt failure map is exactly
the non-success results in order, keyed by domain name. -/
theorem build_go_eq {results : List CheckResult}
    (hnd : (results.map (fun r => r.domain_name)).Nodup) :
    ∀ acc : List (String × CheckResult),
      (∀ r ∈ results, dictHasKey acc r.domain_name = false) →
      build_current_errors_go results acc =
        acc ++ (results.filter (fun r => !r.is_success)).map
          (fun r => (r.domain_name, r)) := by
  induction results with
  | nil => intro acc _; simp [build_current_errors_go]
  | cons r rest ih =>
      intro acc hacc
      rw [List.map_cons, List.nodup_cons] at hnd
      rw [build_current_errors_go]
      by_cases hrs : r.is_success
      · rw [if_pos hrs]
        rw [ih hnd.2 acc (fun q hq => hacc q (List.mem_cons_of_mem _ hq))]
        simp [List.filter_cons, hrs]
      · rw [if_neg hrs]
        rw [dictSet_of_not_hasKey r (hacc r (List.mem_cons_self _ _))]
        rw [ih hnd.2 (acc ++ [(r.domain_name, r)]) ?_]
        · simp [List.filter_cons, hrs]
        · intro q hq
          have h1 := hacc q (List.mem_cons_of_mem _ hq)
          have h2 : ¬(r.domain_name == q.domain_name) := by
            simp only [beq_iff_eq]
            intro he
            exact hnd.1 (he ▸ List.mem_map_of_mem _ hq)
          simp [dictHasKey, List.any_append] at h1 ⊢
          exact ⟨h1, fun he => absurd (by rw [he]; simp) h2⟩

theorem buildCurrentErrors_eq {results : List CheckResult}
    (hnd : (results.map (fun r => r.domain_name)).Nodup) :
    buildCurrentErrors results =
      (results.filter (fun r => !r.is_success)).map (fun r => (r.domain_name, r)) := by
  have := build_go_eq hnd [] (by simp [dictHasKey])
  simpa [buildCurrentErrors] using this

theorem mem_setAdd {s : List String} {x y : String} (h : x ∈ setAdd s y) :
    x ∈ s ∨ x = y := by
  unfold setAdd at h
  split at h
  · exact Or.inl h
  · rw [List.mem_append, List.mem_singleton] at h
    exact h

/-- Every member of the healthy set is the domain name of some success
result. -/
theorem mem_current_healthy_go {results : List CheckResult} {hs : List String}
    {x : String} (h : x ∈ current_healthy_go results hs) :
    x ∈ hs ∨ ∃ r ∈ results, r.is_success = true ∧ r.domain_name = x := by
  induction results generalizing hs with
  | nil => exact Or.inl h
  | cons r rest ih =>
      rw [current_healthy_go] at h
      rcases ih h with hh | ⟨r', hr', hs', hx⟩
      · by_cases hrs : r.is_success
        · rw [if_pos hrs] at hh
          rcases mem_setAdd hh with hin | rfl
          · exact Or.inl hin
          · exact Or.inr ⟨r, List.mem_cons_self _ _, hrs, rfl⟩
        · rw [if_neg hrs] at hh
          exact Or.inl hh
      · exact Or.inr ⟨r', List.mem_cons_of_mem _ hr', hs', hx⟩

theorem mem_currentHealthy {results : List CheckResult} {x : String}
    (h : x ∈ currentHealthy results) :
    ∃ r ∈ results, r.is_success = true ∧ r.domain_name = x := by
  rcases mem_current_healthy_go h with hh | hr
  · cases hh
  · exact hr

/-- When every walked entry is found in `previous` with the same status,
the diff walk classifies everything as persistent, in order. -/
theorem diff_go_self {previous : List (String × CheckResult)} {now : Nat} :
    ∀ (cur : List (String × CheckResult))
      (acc : List CheckResult × List CheckResult × List DomainHistory),
      (∀ p ∈ cur, ∃ q, dictGet? previous p.1 = some q ∧ q.status = p.2.status) →
      diff_errors_go previous now cur acc =
        (acc.1, acc.2.1 ++ cur.map (fun p => p.2), acc.2.2) := by
  intro cur
  induction cur with
  | nil => intro acc _; simp [diff_errors_go]
  | cons p rest ih =>
      intro acc hall
      obtain ⟨newE, persistent, hist⟩ := acc
      obtain ⟨q, hq, hqs⟩ := hall p (List.mem_cons_self _ _)
      rw [diff_errors_go, hq]
      simp only [hqs, ne_eq, not_true_eq_false, if_false, ite_false,
        not_false_eq_true, if_neg (by simp [hqs] : ¬q.status ≠ p.2.status)]
      rw [ih (newE, persistent ++ [p.2], hist)
        (fun r hr => hall r (List.mem_cons_of_mem _ hr))]
      simp

/-- C8 amended: provided the results list carries pairwise-distinct domain
names, running `update_status` twice in succession with the same list makes
the second call return `new_errors = []`, `recovered = []` and
`persistent_errors` equal to exactly the non-success results of the input
(in order). -/
theorem c8_idempotent_on_distinct_domains (st : TrackerState)
    (results : List CheckResult) (now1 cutoff1 now2 cutoff2 : Nat)
    (hnd : (results.map (fun r => r.domain_name)).Nodup)
    (out1 : TrackerState × List CheckResult × List CheckResult × List CheckResult)
    (h1 : update_status st results now1 cutoff1 = .ok out1) :
    ∃ st2, update_status out1.1 results now2 cutoff2 =
      .ok (st2, [], [], results.filter (fun r => !r.is_success)) := by
  have hcur := (update_status_ok h1).1
  have hshape := buildCurrentErrors_eq hnd
  have hkeys : ((buildCurrentErrors results).map Prod.fst).Nodup := by
    rw [hshape, List.map_map]
    have hcomp : (Prod.fst ∘ fun (r : CheckResult) => (r.domain_name, r)) =
        fun r => r.domain_name := rfl
    rw [hcomp]
    exact hnd.sublist (List.Sublist.map _ (List.filter_sublist _))
  have hget : ∀ p ∈ buildCurrentErrors results,
      ∃ q, dictGet? (buildCurrentErrors results) p.1 = some q ∧
        q.status = p.2.status :=
    fun p hp => ⟨p.2, dictGet?_self_of_nodup hkeys p hp, rfl⟩
  have hdisj : ∀ p ∈ buildCurrentErrors results,
      (currentHealthy results).contains p.1 = false := by
    intro p hp
    obtain ⟨hpm, hpk, hfail⟩ := mem_buildCurrentErrors hp
    by_contra hcon
    rw [Bool.not_eq_false] at hcon
    obtain ⟨r', hr', hsucc, hname⟩ :=
      mem_currentHealthy (List.elem_iff.mp hcon)
    have heq : r' = p.2 :=
      List.inj_on_of_nodup_map hnd hr' hpm (by rw [hname, hpk])
    rw [heq] at hsucc
    rw [hsucc] at hfail
    cases hfail
  have hdiffE : diffErrors (buildCurrentErrors results)
      (buildCurrentErrors results) now2 out1.1.history =
      ([], (buildCurrentErrors results).map (fun p => p.2), out1.1.history) := by
    unfold diffErrors
    rw [diff_go_self _ _ hget]
    simp
  have hmap : (buildCurrentErrors results).map (fun p => p.2) =
      results.filter (fun r => !r.is_success) := by
    rw [hshape, List.map_map]
    have hcomp : ((fun (p : String × CheckResult) => p.2) ∘
        fun (r : CheckResult) => (r.domain_name, r)) = id := rfl
    rw [hcomp, List.map_id]
  refine ⟨{ current_errors := buildCurrentErrors results,
            previous_errors := buildCurrentErrors results,
            acknowledged_errors := out1.1.acknowledged_errors,
            history := cleanup_old_records cutoff2 out1.1.history }, ?_⟩
  simp only [update_status, hcur, hdiffE]
  unfold recoveredLoop
  rw [recovered_go_disjoint _ hdisj]
  rw [hmap]

/-- C8 witness: two consecutive updates with two distinct failing
endpoints. -/
theorem c8_witness :
    ((results8.map (fun r => r.domain_name)).Nodup) ∧
    ∃ out1, update_status emptyTracker results8 1 0 = .ok out1 ∧
      ∃ st2, update_status out1.1 results8 2 0 =
        .ok (st2, [], [], results8.filter (fun r => !r.is_success)) :=
  ⟨by decide, _, rfl,
    c8_idempotent_on_distinct_domains emptyTracker results8 1 0 2 0 (by decide)
      _ rfl⟩

theorem dropLast_cons_of_ne_nil {α : Type} (x : α) {l : List α} (h : l ≠ []) :
    (x :: l).dropLast = x :: l.dropLast := by
  cases l with
  | nil => exact absurd rfl h
  | cons b t => rfl

theorem getLast?_cons_of_ne_nil {α : Type} (x : α) {l : List α} (h : l ≠ []) :
    (x :: l).getLast? = l.getLast? := by
  cases l with
  | nil => exact absurd rfl h
  | cons b t => exact List.getLast?_cons_cons

/-- A chain that ends immediately with a returned result. -/
theorem csdSpec_single (M a : Nat) (th : Bool) (r : CheckResult)
    (u : String) (a2 : Nat) (th2 : Bool) (s : CheckStatus)
    (hs : r.status = s) :
    CsdSpec M a th r [⟨u, a2, th2, s, .ret⟩] := by
  refine ⟨by simp, ?_, by simp, ?_, by simp, ?_⟩
  · have h1 : 1 ≤ max (M + 1 - a) 1 := Nat.le_max_right _ _
    simp only [List.length_singleton]
    omega
  · intro rec hrec hstep
    rw [List.mem_singleton] at hrec
    subst hrec
    cases hstep
  · exact ⟨⟨u, a2, th2, s, .ret⟩, by simp, rfl, hs⟩

/-- Prepending a sanctioned retry attempt preserves the specification. -/
theorem csdSpec_retry (M a : Nat) (th : Bool) (r : CheckResult)
    {log : List AttemptRecord} (u : String) (s : CheckStatus)
    (hlt : a < M) (hsx : s = .TIMEOUT ∨ s = .CONNECTION_ERROR)
    (hspec : CsdSpec M (a + 1) th r log) :
    CsdSpec M a th r (⟨u, a, th, s, .retryStep⟩ :: log) := by
  obtain ⟨hne, hlen, hdl, hdg, hcount, last, hlast, hret, hstat⟩ := hspec
  refine ⟨by simp, ?_, ?_, ?_, ?_, ?_⟩
  · simp only [List.length_cons]
    have h1 : max (M + 1 - (a + 1)) 1 = M - a := by omega
    have h2 : max (M + 1 - a) 1 = M + 1 - a := by omega
    omega
  · rw [dropLast_cons_of_ne_nil _ hne]
    intro rec hrec
    rcases List.mem_cons.mp hrec with rfl | hrec2
    · exact Or.inl ⟨rfl, hsx⟩
    · exact hdl rec hrec2
  · intro rec hrec hstep
    rcases List.mem_cons.mp hrec with rfl | hrec2
    · cases hstep
    · exact hdg rec hrec2 hstep
  · rw [List.filter_cons_of_neg (by exact Bool.false_ne_true)]
    exact hcount
  · exact ⟨last, by rw [getLast?_cons_of_ne_nil _ hne]; exact hlast, hret, hstat⟩

/-- Prepending a sanctioned downgrade attempt turns a `th = true` chain
specification into a `th = false` one. -/
theorem csdSpec_downgrade (M a : Nat) (r : CheckResult)
    {log : List AttemptRecord} (u : String) (s : CheckStatus)
    (hsx : s = .SSL_ERROR ∨ (s = .CONNECTION_ERROR ∧ a = 0))
    (hspec : CsdSpec M 0 true r log) :
    CsdSpec M a false r (⟨u, a, false, s, .downgradeStep⟩ :: log) := by
  obtain ⟨hne, hlen, hdl, hdg, hcount, last, hlast, hret, hstat⟩ := hspec
  refine ⟨by simp, ?_, ?_, ?_, ?_, ?_⟩
  · have hlen2 : log.length ≤ max (M + 1 - 0) 1 := hlen
    show log.length + 1 ≤ max (M + 1 - a) 1 + (M + 1)
    have h1 : 1 ≤ max (M + 1 - a) 1 := Nat.le_max_right _ _
    have h2 : max (M + 1 - 0) 1 = M + 1 := by omega
    omega
  · rw [dropLast_cons_of_ne_nil _ hne]
    intro rec hrec
    rcases List.mem_cons.mp hrec with rfl | hrec2
    · exact Or.inr ⟨rfl, hsx⟩
    · exact hdl rec hrec2
  · intro rec hrec hstep
    rcases List.mem_cons.mp hrec with rfl | hrec2
    · exact ⟨rfl, hsx⟩
    · exact hdg rec hrec2 hstep
  · rw [List.filter_cons_of_pos rfl]
    have hc0 : (log.filter (fun rec => rec.step == StepKind.downgradeStep)).length = 0 :=
      Nat.le_zero.mp hcount
    show (log.filter (fun rec => rec.step == StepKind.downgradeStep)).length + 1 ≤ 1
    omega
  · exact ⟨last, by rw [getLast?_cons_of_ne_nil _ hne]; exact hlast, hret, hstat⟩


/-- Every terminating run of the probe chain satisfies `CsdSpec`. -/
theorem csd_go_spec (cfg : CheckerConfig) : ∀ (fuel : Nat) (url : String)
    (a : Nat) (quick th : Bool) (ev : Nat → ProbeEvent) (k : Nat)
    (r : CheckResult) (log : List AttemptRecord),
    check_single_domain_go cfg fuel url a quick th ev k = some (r, log) →
    CsdSpec (maxRetries cfg quick) a th r log := by
  intro fuel
  induction fuel with
  | zero =>
      intro url a quick th ev k r log h
      rw [check_single_domain_go] at h
      exact Option.noConfusion h
  | succ fuel ih =>
      intro url a quick th ev k r log h
      rw [check_single_domain_go] at h
      split at h
      · simp only [Option.some.injEq, Prod.mk.injEq] at h
        obtain ⟨rfl, rfl⟩ := h
        exact csdSpec_single _ _ _ _ _ _ _ _ rfl
      · split at h
        · simp only [Option.some.injEq, Prod.mk.injEq] at h
          obtain ⟨rfl, rfl⟩ := h
          exact csdSpec_single _ _ _ _ _ _ _ _ rfl
        · split at h
          · simp only [Option.some.injEq, Prod.mk.injEq] at h
            obtain ⟨rfl, rfl⟩ := h
            exact csdSpec_single _ _ _ _ _ _ _ _ rfl
          · split at h
            · next hcond =>
                rw [Option.map_eq_some'] at h
                obtain ⟨⟨r', log'⟩, hrl, hf⟩ := h
                simp only [Prod.mk.injEq] at hf
                obtain ⟨rfl, rfl⟩ := hf
                have hspec := ih _ _ _ _ _ _ _ _ hrl
                simp only [Bool.and_eq_true, Bool.not_eq_true'] at hcond
                rw [hcond.2]
                exact csdSpec_downgrade _ _ _ _ _ (Or.inl rfl) hspec
            · simp only [Option.some.injEq, Prod.mk.injEq] at h
              obtain ⟨rfl, rfl⟩ := h
              exact csdSpec_single _ _ _ _ _ _ _ _ rfl
          · split at h
            · next hcond =>
                rw [Option.map_eq_some'] at h
                obtain ⟨⟨r', log'⟩, hrl, hf⟩ := h
                simp only [Prod.mk.injEq] at hf
                obtain ⟨rfl, rfl⟩ := hf
                have hspec := ih _ _ _ _ _ _ _ _ hrl
                simp only [Bool.and_eq_true, Bool.not_eq_true', beq_iff_eq] at hcond
                rw [hcond.1.2]
                exact csdSpec_downgrade _ _ _ _ _ (Or.inr ⟨rfl, hcond.2⟩) hspec
            · split at h
              · next hlt =>
                  rw [Option.map_eq_some'] at h
                  obtain ⟨⟨r', log'⟩, hrl, hf⟩ := h
                  simp only [Prod.mk.injEq] at hf
                  obtain ⟨rfl, rfl⟩ := hf
                  have hspec := ih _ _ _ _ _ _ _ _ hrl
                  exact csdSpec_retry _ _ _ _ _ _ hlt (Or.inr rfl) hspec
              · simp only [Option.some.injEq, Prod.mk.injEq] at h
                obtain ⟨rfl, rfl⟩ := h
                exact csdSpec_single _ _ _ _ _ _ _ _ rfl
          · split at h
            · next hlt =>
                rw [Option.map_eq_some'] at h
                obtain ⟨⟨r', log'⟩, hrl, hf⟩ := h
                simp only [Prod.mk.injEq] at hf
                obtain ⟨rfl, rfl⟩ := hf
                have hspec := ih _ _ _ _ _ _ _ _ hrl
                exact csdSpec_retry _ _ _ _ _ _ hlt (Or.inl rfl) hspec
            · simp only [Option.some.injEq, Prod.mk.injEq] at h
              obtain ⟨rfl, rfl⟩ := h
              exact csdSpec_single _ _ _ _ _ _ _ _ rfl

/-- The fuel bound really is sufficient: the probe chain always returns a
value before running out. -/
theorem csd_go_isSome (cfg : CheckerConfig) : ∀ (fuel : Nat) (url : String)
    (a : Nat) (quick th : Bool) (ev : Nat → ProbeEvent) (k : Nat),
    (if th then 0 else maxRetries cfg quick + 2) +
      (maxRetries cfg quick + 1 - a) < fuel →
    (check_single_domain_go cfg fuel url a quick th ev k).isSome = true := by
  intro fuel
  induction fuel with
  | zero => intro url a quick th ev k hm; omega
  | succ fuel ih =>
      intro url a quick th ev k hm
      rw [check_single_domain_go]
      split
      · rfl
      · split
        · rfl
        · split
          · rfl
          · split
            · next hcond =>
                rw [Option.isSome_map']
                simp only [Bool.and_eq_true, Bool.not_eq_true'] at hcond
                rw [hcond.2] at hm
                refine ih _ _ _ _ _ _ ?_
                have e1 : (if false = true then (0 : Nat)
                    else maxRetries cfg quick + 2) = maxRetries cfg quick + 2 := rfl
                have e2 : (if true = true then (0 : Nat)
                    else maxRetries cfg quick + 2) = 0 := rfl
                rw [e1] at hm
                rw [e2]
                omega
            · rfl
          · split
            · next hcond =>
                rw [Option.isSome_map']
                simp only [Bool.and_eq_true, Bool.not_eq_true', beq_iff_eq] at hcond
                rw [hcond.1.2] at hm
                refine ih _ _ _ _ _ _ ?_
                have e1 : (if false = true then (0 : Nat)
                    else maxRetries cfg quick + 2) = maxRetries cfg quick + 2 := rfl
                have e2 : (if true = true then (0 : Nat)
                    else maxRetries cfg quick + 2) = 0 := rfl
                rw [e1] at hm
                rw [e2]
                omega
            · split
              · next hlt =>
                  rw [Option.isSome_map']
                  refine ih _ _ _ _ _ _ ?_
                  cases th
                  · have e1 : (if false = true then (0 : Nat)
                        else maxRetries cfg quick + 2) = maxRetries cfg quick + 2 := rfl
                    rw [e1] at hm ⊢
                    omega
                  · have e2 : (if true = true then (0 : Nat)
                        else maxRetries cfg quick + 2) = 0 := rfl
                    rw [e2] at hm ⊢
                    omega
              · rfl
          · split
            · next hlt =>
                rw [Option.isSome_map']
                refine ih _ _ _ _ _ _ ?_
                cases th
                · have e1 : (if false = true then (0 : Nat)
                      else maxRetries cfg quick + 2) = maxRetries cfg quick + 2 := rfl
                  rw [e1] at hm ⊢
                  omega
                · have e2 : (if true = true then (0 : Nat)
                      else maxRetries cfg quick + 2) = 0 := rfl
                  rw [e2] at hm ⊢
                  omega
            · rfl

/-- C5 amended: over an entire fresh probe chain (`try_http = false`), the
`http://` downgrade probe is issued at most once; every downgrade is issued
before the flag flips and is triggered exactly by an SSL-classified attempt
(at any retry depth) or by a connection error at `retry_attempt = 0`; and
the chain's returned outcome is that of its final attempt (a downgraded
probe's outcome replaces the first probe's). -/
theorem c5_downgrade_discipline (cfg : CheckerConfig) (url : String)
    (a : Nat) (quick : Bool) (ev : Nat → ProbeEvent) (k : Nat) :
    ((check_single_domain cfg url a quick false ev k).2.filter
        (fun rec => rec.step == .downgradeStep)).length ≤ 1 ∧
    (∀ rec ∈ (check_single_domain cfg url a quick false ev k).2,
      rec.step = .downgradeStep →
        rec.try_http = false ∧ (rec.status = .SSL_ERROR ∨
          (rec.status = .CONNECTION_ERROR ∧ rec.retry_attempt = 0))) ∧
    ∃ last, (check_single_domain cfg url a quick false ev k).2.getLast? =
        some last ∧ last.step = .ret ∧
      (check_single_domain cfg url a quick false ev k).1.status = last.status := by
  have hsome := csd_go_isSome cfg (csdFuel cfg quick) url a quick false ev k (by
    unfold csdFuel
    have e1 : (if false = true then (0 : Nat) else maxRetries cfg quick + 2) =
        maxRetries cfg quick + 2 := rfl
    rw [e1]
    omega)
  rcases hgo : check_single_domain_go cfg (csdFuel cfg quick) url a quick false
      ev k with _ | rl
  · rw [hgo] at hsome
    cases hsome
  · obtain ⟨r, log⟩ := rl
    have hcw : check_single_domain cfg url a quick false ev k = (r, log) := by
      unfold check_single_domain
      rw [hgo]
      rfl
    obtain ⟨hne, hlen, hdl, hdg, hcount, last, hlast, hret, hstat⟩ :=
      csd_go_spec cfg _ _ _ _ _ _ _ _ _ hgo
    rw [hcw]
    exact ⟨hcount, hdg, last, hlast, hret, hstat⟩

/-- C4 amended: for an endpoint processed in a batch, a same-URL re-attempt
happens only when the preceding attempt's status was timeout or
connection error, and the only other re-attempt is the at-most-one HTTP
downgrade probe (triggered by an SSL error, or a connection error at
attempt 0); since the downgrade resets the retry counter, the total number
of attempts is bounded by `2 * retry_count + 2` (so re-attempts beyond the
first probe by `2 * retry_count + 1`), not by `retry_count`. -/
theorem c4_retry_discipline (cfg : CheckerConfig) (quick : Bool)
    (url : String) (ev : Nat → ProbeEvent) :
    (processEndpoint cfg quick url ev).2.length ≤ 2 * cfg.retry_count + 2 ∧
    ∀ rec ∈ (processEndpoint cfg quick url ev).2.dropLast, chainStepOk rec := by
  unfold processEndpoint
  split
  · next hcond =>
      simp only [Bool.and_eq_true, decide_eq_true_eq] at hcond
      obtain ⟨hretry, hrc⟩ := hcond
      have hstat : (check_once url (ev 0)).status = .TIMEOUT ∨
          (check_once url (ev 0)).status = .CONNECTION_ERROR := by
        have hmem := List.elem_iff.mp hretry
        simpa [retryableStatuses] using hmem
      have hsome := csd_go_isSome cfg (csdFuel cfg quick) url 1 quick false ev 1 (by
        unfold csdFuel
        have e1 : (if false = true then (0 : Nat) else maxRetries cfg quick + 2) =
            maxRetries cfg quick + 2 := rfl
        rw [e1]
        omega)
      rcases hgo : check_single_domain_go cfg (csdFuel cfg quick) url 1 quick
          false ev 1 with _ | rl
      · rw [hgo] at hsome
        cases hsome
      · obtain ⟨r, log⟩ := rl
        have hcw : check_single_domain cfg url 1 quick false ev 1 = (r, log) := by
          unfold check_single_domain
          rw [hgo]
          rfl
        rw [hcw]
        obtain ⟨hne, hlen, hdl, hdg, hcount, last, hlast, hret, hstat2⟩ :=
          csd_go_spec cfg _ _ _ _ _ _ _ _ _ hgo
        constructor
        · show log.length + 1 ≤ 2 * cfg.retry_count + 2
          have hM : maxRetries cfg quick ≤ cfg.retry_count ∧
              1 ≤ maxRetries cfg quick := by
            unfold maxRetries
            constructor <;> split <;> omega
          have hlen2 : log.length ≤ max (maxRetries cfg quick + 1 - 1) 1 +
              (maxRetries cfg quick + 1) := hlen
          have hmax : max (maxRetries cfg quick + 1 - 1) 1 =
              maxRetries cfg quick := by omega
          omega
        · rw [dropLast_cons_of_ne_nil _ hne]
          intro rec2 hrec2
          rcases List.mem_cons.mp hrec2 with rfl | h2
          · exact Or.inl ⟨rfl, hstat⟩
          · exact hdl rec2 h2
  · constructor
    · show 1 ≤ 2 * cfg.retry_count + 2
      omega
    · intro rec hrec
      simp at hrec

/-- Batches concatenate back to the full endpoint list as long as every
batch size is positive (the source clamps the adaptive concurrency into
`[1, 200]`). -/
theorem splitBatches_flatten (sizes : Nat → Nat) (hs : ∀ i, 1 ≤ sizes i) :
    ∀ (fuel i : Nat) (urls : List String), urls.length ≤ fuel →
      (splitBatches fuel sizes i urls).flatten = urls := by
  intro fuel
  induction fuel with
  | zero =>
      intro i urls h
      cases urls with
      | nil => rfl
      | cons u rest => simp at h
  | succ n ih =>
      intro i urls h
      cases urls with
      | nil => rfl
      | cons u rest =>
          have hlen2 : ((u :: rest).drop (sizes i)).length ≤ n := by
            have h1 := hs i
            simp only [List.length_drop, List.length_cons]
            simp only [List.length_cons] at h
            omega
          rw [show splitBatches (n + 1) sizes i (u :: rest) =
              (u :: rest).take (sizes i) ::
                splitBatches n sizes (i + 1) ((u :: rest).drop (sizes i)) from rfl]
          rw [List.flatten_cons, ih (i + 1) _ hlen2, List.take_append_drop]

/-- C6: the worker pool emits exactly one result per input endpoint: the
output is the input list mapped through the per-endpoint probe flow, so in
particular its length equals the input's, independently of retries,
quick-mode and between-batch concurrency adjustments. -/
theorem c6_one_result_per_endpoint (cfg : CheckerConfig) (urls : List String)
    (sizes : Nat → Nat) (ev : String → Nat → ProbeEvent)
    (hs : ∀ i, 1 ≤ sizes i) :
    check_domains_batch cfg urls sizes ev =
      urls.map (fun u =>
        (processEndpoint cfg (decide (urls.length > 50)) u (ev u)).1) ∧
    (check_domains_batch cfg urls sizes ev).length = urls.length := by
  have hmain : check_domains_batch cfg urls sizes ev =
      urls.map (fun u =>
        (processEndpoint cfg (decide (urls.length > 50)) u (ev u)).1) := by
    unfold check_domains_batch
    rw [← List.map_flatten]
    rw [splitBatches_flatten sizes hs urls.length 0 urls (Nat.le_refl _)]
  exact ⟨hmain, by rw [hmain, List.length_map]⟩

/-- C6 witness: three endpoints, batch size 2, all probes succeed. -/
theorem c6_witness :
    (∀ i, 1 ≤ sizes6 i) ∧
    (check_domains_batch {} urls6 sizes6 ev6 =
        urls6.map (fun u =>
          (processEndpoint {} (decide (urls6.length > 50)) u (ev6 u)).1) ∧
      (check_domains_batch {} urls6 sizes6 ev6).length = urls6.length) :=
  ⟨fun _ => Nat.le_succ 1, c6_one_result_per_endpoint {} urls6 sizes6 ev6
    (fun _ => Nat.le_succ 1)⟩
